import Mathlib

/-!
Shallow embedding of the ziko-backend identity-and-verification subsystem:
the one-time-code store (`src/services/smsService.js`), password
verification and the auth flows (`src/services/authService.js`), phone
normalization and the auth routes (`src/routes/giftcards.js`), and the
retry layer (`src/unnamed/part_001`, cloud utilities).

Strings are modelled as `List Char` (`Str`); JavaScript string operations
(`startsWith`, `substring`, `trim`, regex strip of `[\s\-]`, `toLowerCase`)
become the corresponding list operations.  Absent/`null` string fields are
`Option Str` with `none`; removing a field from a returned object (the JS
rest-destructuring `{passwordHash: _, ...rest}`) is modelled as setting
that field to `none`.  Time is a `Nat` millisecond clock passed explicitly;
random identifiers, generated codes and timestamps are explicit parameters.
-/

namespace Ziko

abbrev Str := List Char

/-! ## One-time code store (`src/services/smsService.js`) -/

/-- An entry of the in-memory OTP map: `{ code, expiresAt }`
(smsService.js lines 89-92). -/
structure OtpRecord where
  code : Str
  expiresAt : Nat
deriving DecidableEq, Repr

/-- The in-memory `otpStore` `Map`, as an association list keyed by
phone number. -/
abbrev OtpStore := List (Str × OtpRecord)

/-- `otpStore.get(key)`. -/
def otpGet (s : OtpStore) (k : Str) : Option OtpRecord :=
  (s.find? (fun e => e.1 = k)).map (·.2)

/-- `otpStore.delete(key)`. -/
def otpDelete (s : OtpStore) (k : Str) : OtpStore :=
  s.filter (fun e => ¬ e.1 = k)

/-- `otpStore.set(key, { code, expiresAt: now + 5*60*1000 })`
(smsService.js lines 89-92): a reissue overwrites any prior entry for
the key. -/
def otpIssue (s : OtpStore) (k : Str) (code : Str) (now : Nat) : OtpStore :=
  (k, ⟨code, now + 5 * 60 * 1000⟩) :: otpDelete s k

/-- `smsService.verifyOTP(phoneNumber, code)` (smsService.js lines
196-221), with the implicit `Date.now()` and the mutated store made
explicit: returns the boolean result and the store after the call.
Missing entry → false; expired (`now > expiresAt`) → delete, false;
wrong code → false, store untouched; match → delete, true. -/
def verifyOTP (s : OtpStore) (now : Nat) (k : Str) (code : Str) :
    Bool × OtpStore :=
  match otpGet s k with
  | none => (false, s)
  | some r =>
    if r.expiresAt < now then (false, otpDelete s k)
    else if ¬ r.code = code then (false, s)
    else (true, otpDelete s k)

/-- `smsService.cleanupExpiredOTPs()` (smsService.js lines 226-233). -/
def cleanupExpiredOTPs (s : OtpStore) (now : Nat) : OtpStore :=
  s.filter (fun e => ¬ e.2.expiresAt < now)

/-! ## String helpers (JavaScript string methods on `Str`) -/

/-- A whitespace character, as matched by JS `trim` and the `\s` class. -/
def isWsChar (c : Char) : Bool := c = ' ' || c = '\t' || c = '\n' || c = '\r'

/-- JS `String.prototype.trim`. -/
def trimStr (p : Str) : Str :=
  ((p.dropWhile isWsChar).reverse.dropWhile isWsChar).reverse

/-- JS `.replace(/[\s\-]/g, '')`: delete every whitespace or dash. -/
def stripSpacesDashes (p : Str) : Str :=
  p.filter (fun c => ¬ (isWsChar c || c = '-'))

/-- JS `p.startsWith(pre)`. -/
def startsWithStr (p pre : Str) : Bool := pre.isPrefixOf p

/-- JS `String.prototype.toLowerCase` (ASCII). -/
def toLowerStr (p : Str) : Str := p.map Char.toLower

/-- JS `hay.includes(needle)` / DynamoDB `contains` on strings. -/
def containsStr (hay needle : Str) : Bool :=
  (List.range (hay.length + 1)).any (fun i => needle.isPrefixOf (hay.drop i))

/-! ## PhoneNormalizer
`normalizePhoneNumber` (src/routes/giftcards.js lines 269-296),
`normalizeToLocalFormat` and the candidate-format list of
`getUserByPhone` (src/services/authService.js lines 375-460). -/

/-- `normalizePhoneNumber(phoneNumber)` (giftcards.js lines 269-296):
falsy input returned as-is; a `+`-prefixed input returned as trimmed;
otherwise spaces/dashes are stripped, then a leading `0` gets `+972`
prepended (keeping the 0), a bare `972` gets `+`, and anything else gets
`+972`. -/
def normalizePhoneNumber (p : Str) : Str :=
  if p.isEmpty then p
  else
    let t := trimStr p
    if startsWithStr t ['+'] then t
    else
      let n := stripSpacesDashes t
      if startsWithStr n ['0'] then "+972".data ++ n
      else if startsWithStr n "972".data then '+' :: n
      else "+972".data ++ n

/-- `normalizeToLocalFormat(phone)` (authService.js lines 379-411):
strips a `+972`/`972` country prefix (with or without the trunk `0`)
and reinstates the leading local `0`; inputs already starting with `0`
are unchanged, anything else gets a `0` prepended. -/
def normalizeToLocalFormat (p : Str) : Str :=
  if p.isEmpty then p
  else
    let n := trimStr p
    if startsWithStr n "+9720".data then '0' :: n.drop 5
    else if startsWithStr n "+972".data then '0' :: n.drop 4
    else if startsWithStr n "9720".data then '0' :: n.drop 4
    else if startsWithStr n "972".data then '0' :: n.drop 3
    else if startsWithStr n ['0'] then n
    else '0' :: n

/-- The `internationalWithoutZero` variant computed inside
`getUserByPhone` (authService.js lines 420-423). -/
def intlWithoutZero (p : Str) : Str :=
  if startsWithStr p "+9720".data then "+972".data ++ p.drop 5 else p

/-- First-occurrence-preserving deduplication, as
`[...new Set(searchFormats)]`. -/
def dedupAux (seen : List Str) : List Str → List Str
  | [] => []
  | x :: xs => if x ∈ seen then dedupAux seen xs else x :: dedupAux (x :: seen) xs

def dedupStr (l : List Str) : List Str := dedupAux [] l

/-- The deduplicated candidate list `uniqueFormats` built by
`getUserByPhone` (authService.js lines 425-432): the input as given, its
local format, and the international form without the trunk zero, with
falsy (empty) entries filtered out. -/
def candidateFormats (p : Str) : List Str :=
  dedupStr (([p, normalizeToLocalFormat p, intlWithoutZero p]).filter
    (fun x => ¬ x.isEmpty))

/-! ### The family of equivalent phone representations

The claims quantify over "phone inputs differing only in a leading `+`,
the leading local trunk digit `0`, or spacing/dashes".  We make that
family precise: a *core* `s` is the local subscriber digit string
without the trunk `0` (for Israeli numbers a string of digits not
beginning with `0` or `9`), and a representation of it either carries
the trunk digit (`trunk = true`: `0s`, `9720s`, `+9720s`) or not
(`trunk = false`: `s`, `972s`, `+972s`), with arbitrary internal
spacing/dashes in the non-`+` forms (the source strips them only on
inputs that do not start with `+`). -/

/-- An ASCII decimal digit. -/
def isDigitChar (c : Char) : Bool := '0' ≤ c && c ≤ '9'

/-- A well-formed local core: nonempty digits, not starting with the
trunk digit `0` nor with `9` (which would collide with the `972`
country-code prefix tests). -/
def GoodCore (s : Str) : Prop :=
  s ≠ [] ∧ (∀ c ∈ s, isDigitChar c = true) ∧
    s.head? ≠ some '0' ∧ s.head? ≠ some '9'

/-- The canonical (international) form `normalizePhoneNumber` produces
for a representation of the core `s`: with the trunk digit kept
(`+9720s`) or without it (`+972s`). -/
def canonicalPhone (s : Str) (trunk : Bool) : Str :=
  if trunk then "+9720".data ++ s else "+972".data ++ s

/-- `p` represents the core `s`, carrying the trunk digit iff `trunk`:
either a non-`+` form whose content after trimming and removal of
spaces/dashes is `0s`/`9720s` (resp. `s`/`972s`), or the `+`-prefixed
international form itself. -/
def IsPhoneVariant (s : Str) (trunk : Bool) (p : Str) : Prop :=
  if trunk then
    (startsWithStr (trimStr p) ['+'] = false ∧
      (stripSpacesDashes (trimStr p) = '0' :: s ∨
        stripSpacesDashes (trimStr p) = "9720".data ++ s)) ∨
      trimStr p = "+9720".data ++ s
  else
    (startsWithStr (trimStr p) ['+'] = false ∧
      (stripSpacesDashes (trimStr p) = s ∨
        stripSpacesDashes (trimStr p) = "972".data ++ s)) ∨
      trimStr p = "+972".data ++ s

instance (s : Str) : Decidable (GoodCore s) := by
  unfold GoodCore
  infer_instance

instance (s : Str) (t : Bool) (p : Str) : Decidable (IsPhoneVariant s t p) := by
  unfold IsPhoneVariant
  split <;> infer_instance

/-! ## CredentialManager (src/services/authService.js lines 182-215) -/

/-- A hexadecimal character, case-insensitive (`[a-f0-9]` with the `i`
flag). -/
def isHexCharCI (c : Char) : Bool :=
  ('a' ≤ c && c ≤ 'f') || ('A' ≤ c && c ≤ 'F') || ('0' ≤ c && c ≤ '9')

/-- The structural legacy-digest test of `verifyPassword` (authService.js
line 204): `hash.length === 64 && /^[a-f0-9]{64}$/i.test(hash)` — the
anchored 64-hex-character regex combined with the length check. -/
def isLegacyHash (h : Str) : Bool := h.length == 64 && h.all isHexCharCI

/-- `verifyPassword(password, hash)` (authService.js lines 200-215) with
the bcrypt comparison abstracted as an oracle `bcryptCompare`: digests
matching the legacy SHA-256 shape are rejected outright without
consulting the oracle; everything else is delegated to
`bcrypt.compare`. -/
def verifyPassword (bcryptCompare : Str → Str → Bool) (password hash : Str) :
    Bool :=
  if isLegacyHash hash then false else bcryptCompare password hash

/-! ## User records and IdentityLookup (src/services/authService.js) -/

/-- A `ziko-users` record.  `none` models a JS `null`/absent string
attribute. -/
structure User where
  id : Str
  email : Option Str
  phone : Option Str
  name : Str
  profileImage : Option Str
  passwordHash : Option Str
  googleId : Option Str
  authMethods : List Str
  isVerified : Bool
  lastLoginAt : Str
  createdAt : Str
  updatedAt : Str
deriving DecidableEq, Repr

/-- JS `v || null` on an optional string: an empty string is falsy. -/
def jsOrNone (v : Option Str) : Option Str :=
  match v with
  | none => none
  | some s => if s.isEmpty then none else some s

/-- JS `v || d` on an optional string. -/
def jsOrDefault (v : Option Str) (d : Str) : Str :=
  match v with
  | none => d
  | some s => if s.isEmpty then d else s

/-- The rest-destructuring `{ passwordHash: _, ...userWithoutPassword }`:
the returned record carries no password hash. -/
def stripPasswordHash (u : User) : User := { u with passwordHash := none }

/-- `getUserByEmail` (authService.js lines 352-373): scan for
`email = :email` with the query lowercased, first match. -/
def findByEmail (db : List User) (email : Str) : Option User :=
  db.find? (fun u => u.email == some (toLowerStr email))

/-- `getUserByGoogleId` (authService.js lines 462-483). -/
def getUserByGoogleId (db : List User) (googleId : Str) : Option User :=
  db.find? (fun u => u.googleId == some googleId)

/-- `userService.getUserById` (src/unnamed/part_000): a raw key lookup —
the stored item is returned as-is, nothing is stripped. -/
def getUserById (db : List User) (userId : Str) : Option User :=
  db.find? (fun u => u.id == userId)

/-- One scan of `phone = :format` inside `getUserByPhone`. -/
def findByPhone (db : List User) (format : Str) : Option User :=
  db.find? (fun u => u.phone == some format)

/-- `getUserByPhone(phoneNumber)` (authService.js lines 375-460): try
each candidate format in order, returning the first match. -/
def getUserByPhone (db : List User) (phoneNumber : Str) : Option User :=
  (candidateFormats phoneNumber).findSome? (findByPhone db)

/-- `userService.updateUser(userId, {lastLoginAt})` as used by the login
flows: rewrite the record in place, also bumping `updatedAt`. -/
def updateLastLogin (db : List User) (userId : Str) (now : Str) : List User :=
  db.map (fun u =>
    if u.id = userId then { u with lastLoginAt := now, updatedAt := now } else u)

/-! ## AuthOrchestrator flows (src/services/authService.js,
src/routes/giftcards.js).  Results are `Except err user`, modelling the
`{success:false, error}` / `{success:true, user}` envelopes; nondeterministic
inputs (generated id, clock) are explicit parameters. -/

def invalidCredentialsMsg : Str := "Invalid email or password".data

/-- `loginWithEmail(email, password)` (authService.js lines 320-350).
Returns the result envelope and the record store after the
`lastLoginAt` update. -/
def loginWithEmail (bcryptCompare : Str → Str → Bool) (db : List User)
    (email password : Str) (now : Str) : Except Str User × List User :=
  match findByEmail db email with
  | none => (.error invalidCredentialsMsg, db)
  | some u =>
    match u.passwordHash with
    | none => (.error invalidCredentialsMsg, db)
    | some h =>
      if h.isEmpty then (.error invalidCredentialsMsg, db)
      else if verifyPassword bcryptCompare password h then
        (.ok (stripPasswordHash u), updateLastLogin db u.id now)
      else (.error invalidCredentialsMsg, db)

/-- Input of `registerWithEmail` (authService.js lines 222-263). -/
structure EmailRegInput where
  email : Str
  password : Str
  name : Str
  phone : Option Str

/-- The record built by `registerWithEmail` (authService.js lines
234-249), with the bcrypt hash abstracted as `hashFn`. -/
def newEmailUser (inp : EmailRegInput) (hashFn : Str → Str) (newId now : Str) :
    User :=
  { id := newId
    email := some (toLowerStr inp.email)
    phone := jsOrNone inp.phone
    name := inp.name
    profileImage := none
    passwordHash := some (hashFn inp.password)
    googleId := none
    authMethods := ["email".data]
    isVerified := false
    lastLoginAt := now, createdAt := now, updatedAt := now }

/-- `registerWithEmail(userData)` (authService.js lines 222-263). -/
def registerWithEmail (hashFn : Str → Str) (db : List User)
    (inp : EmailRegInput) (newId now : Str) : Except Str User × List User :=
  match findByEmail db inp.email with
  | some _ => (.error "User already exists with this email".data, db)
  | none =>
    let nu := newEmailUser inp hashFn newId now
    (.ok (stripPasswordHash nu), db ++ [nu])

/-- Input of `registerWithGoogle` (authService.js lines 265-318). -/
structure GoogleRegInput where
  email : Str
  googleId : Str
  name : Option Str
  profileImage : Option Str

/-- The record built by `registerWithGoogle` (authService.js lines
286-301): no password hash, pre-verified. -/
def newGoogleUser (inp : GoogleRegInput) (newId now : Str) : User :=
  { id := newId
    email := some (trimStr (toLowerStr inp.email))
    phone := none
    name := jsOrDefault inp.name "User".data
    profileImage := jsOrNone inp.profileImage
    passwordHash := none
    googleId := some inp.googleId
    authMethods := ["google".data]
    isVerified := true
    lastLoginAt := now, createdAt := now, updatedAt := now }

/-- `registerWithGoogle(userData)` (authService.js lines 265-318):
lookup by email, then by Google id; an existing user is returned as an
idempotent success; otherwise a new pre-verified user is appended. -/
def registerWithGoogle (db : List User) (inp : GoogleRegInput)
    (newId now : Str) : Except Str User × List User :=
  match findByEmail db inp.email with
  | some u => (.ok (stripPasswordHash u), db)
  | none =>
    match getUserByGoogleId db inp.googleId with
    | some u => (.ok (stripPasswordHash u), db)
    | none =>
      let nu := newGoogleUser inp newId now
      (.ok (stripPasswordHash nu), db ++ [nu])

/-- `getUsers({query})` (authService.js lines 538-577): a `google:`
prefix switches to exact Google-id lookup; otherwise a substring scan of
name, email and phone against the lowercased query.  The matching
records are returned raw. -/
def getUsers (db : List User) (query : Str) : List User :=
  if startsWithStr query "google:".data then
    match getUserByGoogleId db (query.drop 7) with
    | some u => [u]
    | none => []
  else
    db.filter (fun u =>
      containsStr u.name (toLowerStr query) ||
      (match u.email with | none => false | some e => containsStr e (toLowerStr query)) ||
      (match u.phone with | none => false | some p => containsStr p (toLowerStr query)))

/-- The `/login-with-phone` route (giftcards.js lines 353-391): normalize
the phone, verify the OTP, look the user up by phone, bump
`lastLoginAt`, and return the user stripped of the password hash. -/
def loginWithPhone (otp : OtpStore) (db : List User) (nowMs : Nat)
    (phone code : Str) (now : Str) :
    Except Str User × OtpStore × List User :=
  let np := normalizePhoneNumber phone
  let v := verifyOTP otp nowMs np code
  if v.1 = false then (.error "Invalid or expired OTP code".data, v.2, db)
  else
    match getUserByPhone db np with
    | none => (.error "User not found. Please register first.".data, v.2, db)
    | some u => (.ok (stripPasswordHash u), v.2, updateLastLogin db u.id now)

/-! ## RetryExecutor (src/unnamed/part_001, cloud utilities) -/

/-- A JS error value as consulted by the classifier: its `name` and its
`message` (an absent message is the empty string, on which the
`includes` probes are false). -/
structure JsError where
  name : Str
  message : Str
deriving DecidableEq, Repr

/-- `isNonRetryableError(error)` (part_001 lines 56-74): authorization,
validation and not-found errors, recognized by name or message
substring. -/
def isNonRetryableError (err : JsError) : Bool :=
  (err.name == "UnauthorizedOperation".data ||
   err.name == "InvalidUserID.NotFound".data ||
   containsStr err.message "Unauthorized".data) ||
  (err.name == "ValidationException".data ||
   containsStr err.message "InvalidParameterValue".data) ||
  (err.name == "ResourceNotFoundException".data ||
   containsStr err.message "does not exist".data)

/-- The retry policy record (part_001 lines 3-8, `RETRY_CONFIG`). -/
structure RetryConfig where
  maxRetries : Nat
  baseDelay : Nat
  maxDelay : Nat
  backoffMultiplier : Nat
deriving DecidableEq, Repr

/-- The default policy: `maxRetries=3, baseDelay=1000, maxDelay=10000,
backoffMultiplier=2`. -/
def defaultRetryConfig : RetryConfig := ⟨3, 1000, 10000, 2⟩

/-- `Math.min(baseDelay * Math.pow(backoffMultiplier, attempt), maxDelay)`
(part_001 lines 40-43). -/
def backoffDelay (cfg : RetryConfig) (attempt : Nat) : Nat :=
  min (cfg.baseDelay * cfg.backoffMultiplier ^ attempt) cfg.maxDelay

/-- Observable trace of one `retryWithBackoff` run: the final outcome,
the sleeps performed between attempts (in order), and how many times the
operation was invoked. -/
structure RetryTrace (A : Type) where
  outcome : Except JsError A
  delays : List Nat
  calls : Nat
deriving Repr

/-- The loop body of `retryWithBackoff` (part_001 lines 23-48), indexed
by the current `attempt` and the number of attempts still allowed after
it (`remaining = maxRetries - attempt`).  The operation is modelled as a
function from the attempt index to that invocation's outcome.  When
`remaining = 0` the error is surfaced with no further delay — in the
source this is the `attempt === maxRetries` break (or, for a
non-retryable error, the immediate rethrow; the surfaced error is the
same either way). -/
def retryGo (fn : Nat → Except JsError A) (cfg : RetryConfig)
    (attempt : Nat) : Nat → RetryTrace A
  | 0 =>
    match fn attempt with
    | .ok a => ⟨.ok a, [], 1⟩
    | .error e => ⟨.error e, [], 1⟩
  | remaining + 1 =>
    match fn attempt with
    | .ok a => ⟨.ok a, [], 1⟩
    | .error e =>
      if isNonRetryableError e then ⟨.error e, [], 1⟩
      else
        let rest := retryGo fn cfg (attempt + 1) remaining
        ⟨rest.outcome, backoffDelay cfg attempt :: rest.delays, rest.calls + 1⟩

/-- `retryWithBackoff(fn, config)` (part_001 lines 13-51). -/
def retryWithBackoff (fn : Nat → Except JsError A) (cfg : RetryConfig) :
    RetryTrace A :=
  retryGo fn cfg 0 cfg.maxRetries

/-! ## Concrete sample data for witnesses and counterexamples -/

/-- A concrete stored user row with a (current-scheme) password hash. -/
def sampleUser : User :=
  { id := "u1".data
    email := some "a@b.com".data
    phone := some "+9720501234567".data
    name := "bob".data
    profileImage := none
    passwordHash := some "secret-bcrypt-digest".data
    googleId := none
    authMethods := ["email".data]
    isVerified := false
    lastLoginAt := "t0".data, createdAt := "t0".data, updatedAt := "t0".data }

/-- A concrete transient infrastructure error, classified retryable. -/
def sampleNetworkError : JsError :=
  { name := "NetworkError".data, message := "socket hang up".data }

theorem otpGet_delete (s : OtpStore) (k : Str) :
    otpGet (otpDelete s k) k = none := by
  induction s with
  | nil => rfl
  | cons e t ih =>
    by_cases h : e.1 = k
    · simp only [otpDelete, List.filter_cons, h, not_true, decide_False,
        if_neg Bool.false_ne_true]
      exact ih
    · simp only [otpDelete, otpGet, List.filter_cons, h, not_false_iff,
        decide_True, if_pos rfl, List.find?, decide_eq_true_eq, if_neg h]
      exact ih

theorem verifyOTP_of_get_none (s : OtpStore) (now : Nat) (k c : Str)
    (h : otpGet s k = none) : verifyOTP s now k c = (false, s) := by
  simp [verifyOTP, h]

/-- C1: a successful `verifyOTP` deletes the entry for the key, and every
subsequent `verifyOTP` call for that key (in particular with the same
code) on the resulting store returns false and leaves the store
unchanged — an issued code verifies successfully at most once. -/
theorem c1_otp_single_use (s : OtpStore) (now : Nat) (k code : Str)
    (h : (verifyOTP s now k code).1 = true) :
    otpGet (verifyOTP s now k code).2 k = none ∧
      ∀ now' code',
        verifyOTP (verifyOTP s now k code).2 now' k code' =
          (false, (verifyOTP s now k code).2) := by
  cases hg : otpGet s k with
  | none => simp [verifyOTP, hg] at h
  | some r =>
    by_cases he : r.expiresAt < now
    · simp [verifyOTP, hg, he] at h
    · by_cases hc : r.code = code
      · have h2 : (verifyOTP s now k code).2 = otpDelete s k := by
          simp [verifyOTP, hg, he, hc]
        rw [h2]
        exact ⟨otpGet_delete s k, fun now' code' =>
          verifyOTP_of_get_none _ now' k code' (otpGet_delete s k)⟩
      · simp [verifyOTP, hg, he, hc] at h

/-- Witness for C1 at a concrete store: the stored code `1` verifies at
time 5 (before expiry 10), after which the entry is gone and the replay
fails. -/
theorem c1_otp_single_use_witness :
    (verifyOTP [(['p'], ⟨['1'], 10⟩)] 5 ['p'] ['1']).1 = true ∧
      otpGet (verifyOTP [(['p'], ⟨['1'], 10⟩)] 5 ['p'] ['1']).2 ['p'] = none ∧
      verifyOTP (verifyOTP [(['p'], ⟨['1'], 10⟩)] 5 ['p'] ['1']).2 7 ['p'] ['1'] =
        (false, (verifyOTP [(['p'], ⟨['1'], 10⟩)] 5 ['p'] ['1']).2) :=
  ⟨by decide,
   (c1_otp_single_use [(['p'], ⟨['1'], 10⟩)] 5 ['p'] ['1'] (by decide)).1,
   (c1_otp_single_use [(['p'], ⟨['1'], 10⟩)] 5 ['p'] ['1'] (by decide)).2 7 ['1']⟩

/-- C2: when the stored entry for a key has `expiresAt` earlier than the
current time, `verifyOTP` fails for any presented code (even the stored
one) and the expired entry is deleted from the store by that lookup. -/
theorem c2_expired_code_rejected_and_deleted (s : OtpStore) (now : Nat)
    (k code : Str) (r : OtpRecord)
    (hg : otpGet s k = some r) (he : r.expiresAt < now) :
    verifyOTP s now k code = (false, otpDelete s k) ∧
      otpGet (verifyOTP s now k code).2 k = none := by
  have h1 : verifyOTP s now k code = (false, otpDelete s k) := by
    simp [verifyOTP, hg, he]
  exact ⟨h1, by rw [h1]; exact otpGet_delete s k⟩

/-- Witness for C2: the entry expired at time 3; at time 5 even the
correct code `1` is rejected and the record is removed. -/
theorem c2_expired_code_rejected_and_deleted_witness :
    otpGet [(['p'], OtpRecord.mk ['1'] 3)] ['p'] = some (OtpRecord.mk ['1'] 3) ∧
      (3 : Nat) < 5 ∧
      verifyOTP [(['p'], OtpRecord.mk ['1'] 3)] 5 ['p'] ['1'] =
        (false, otpDelete [(['p'], OtpRecord.mk ['1'] 3)] ['p']) :=
  ⟨by decide, by decide,
   (c2_expired_code_rejected_and_deleted [(['p'], OtpRecord.mk ['1'] 3)] 5
      ['p'] ['1'] (OtpRecord.mk ['1'] 3) (by decide) (by decide)).1⟩

/-- C10: a wrong guess against an unexpired entry fails and leaves the
store unchanged, so the correct code still verifies at any later time
before expiry — wrong guesses never invalidate the stored code. -/
theorem c10_wrong_code_leaves_store (s : OtpStore) (now : Nat)
    (k code : Str) (r : OtpRecord)
    (hg : otpGet s k = some r) (he : ¬ r.expiresAt < now)
    (hc : ¬ r.code = code) :
    verifyOTP s now k code = (false, s) ∧
      ∀ now', ¬ r.expiresAt < now' →
        verifyOTP s now' k r.code = (true, otpDelete s k) := by
  refine ⟨by simp [verifyOTP, hg, he, hc], fun now' he' => ?_⟩
  simp [verifyOTP, hg, he']

/-- Witness for C10: guessing `2` against stored code `1` (expiry 10) at
time 5 fails without touching the store; the correct code `1` then
succeeds at time 7. -/
theorem c10_wrong_code_leaves_store_witness :
    verifyOTP [(['p'], OtpRecord.mk ['1'] 10)] 5 ['p'] ['2'] =
        (false, [(['p'], OtpRecord.mk ['1'] 10)]) ∧
      verifyOTP [(['p'], OtpRecord.mk ['1'] 10)] 7 ['p'] ['1'] =
        (true, otpDelete [(['p'], OtpRecord.mk ['1'] 10)] ['p']) :=
  ⟨(c10_wrong_code_leaves_store [(['p'], OtpRecord.mk ['1'] 10)] 5 ['p'] ['2']
      (OtpRecord.mk ['1'] 10) (by decide) (by decide) (by decide)).1,
   (c10_wrong_code_leaves_store [(['p'], OtpRecord.mk ['1'] 10)] 5 ['p'] ['2']
      (OtpRecord.mk ['1'] 10) (by decide) (by decide) (by decide)).2 7 (by decide)⟩


/-! ## Claim theorems -/

/-- C3: any digest matching the 64-hex legacy pattern is rejected for
every password and every bcrypt comparison oracle — in particular when
the digest is exactly the legacy hash of the password (legacy SHA-256
hex digests always match the pattern), and without the comparison ever
being consulted (the result is false even for an oracle that accepts
everything). -/
theorem c3_legacy_digest_always_rejected (bcryptCompare : Str → Str → Bool)
    (password digest : Str) (hd : isLegacyHash digest = true) :
    verifyPassword bcryptCompare password digest = false := by
  simp [verifyPassword, hd]

/-- Witness for C3: a concrete 64-hex digest is rejected even under an
always-accepting comparison oracle. -/
theorem c3_legacy_digest_always_rejected_witness :
    isLegacyHash (List.replicate 64 'a') = true ∧
      verifyPassword (fun _ _ => true) "password1".data
        (List.replicate 64 'a') = false :=
  ⟨by decide,
   c3_legacy_digest_always_rejected (fun _ _ => true) "password1".data
     (List.replicate 64 'a') (by decide)⟩

/-- C4: `loginWithEmail` returns the identical failure payload
`(error "Invalid email or password", unchanged store)` in all three
failure cases — unknown email, null password digest, and failed
verification — so responses do not reveal whether the account exists. -/
theorem c4_uniform_login_failure (bc : Str → Str → Bool) (db : List User)
    (email password now : Str) :
    (findByEmail db email = none →
        loginWithEmail bc db email password now =
          (.error invalidCredentialsMsg, db)) ∧
      (∀ u, findByEmail db email = some u → u.passwordHash = none →
        loginWithEmail bc db email password now =
          (.error invalidCredentialsMsg, db)) ∧
      (∀ u h, findByEmail db email = some u → u.passwordHash = some h →
        verifyPassword bc password h = false →
        loginWithEmail bc db email password now =
          (.error invalidCredentialsMsg, db)) := by
  refine ⟨fun h1 => by simp [loginWithEmail, h1],
    fun u h1 h2 => by simp [loginWithEmail, h1, h2],
    fun u h h1 h2 h3 => ?_⟩
  by_cases he : h.isEmpty
  · simp [loginWithEmail, h1, h2, he]
  · simp [loginWithEmail, h1, h2, he, h3]

/-- Witness for C4: the failure payload for a nonexistent account equals
the payload for an existing account with a wrong password. -/
theorem c4_uniform_login_failure_witness :
    loginWithEmail (fun _ _ => false) [] "a@b.com".data "wrong".data [] =
        (.error invalidCredentialsMsg, ([] : List User)) ∧
      loginWithEmail (fun _ _ => false) [sampleUser] "a@b.com".data
          "wrong".data [] =
        (.error invalidCredentialsMsg, [sampleUser]) :=
  ⟨(c4_uniform_login_failure (fun _ _ => false) [] "a@b.com".data
      "wrong".data []).1 (by decide),
   (c4_uniform_login_failure (fun _ _ => false) [sampleUser] "a@b.com".data
      "wrong".data []).2.2 sampleUser "secret-bcrypt-digest".data
     (by decide) (by decide) (by decide)⟩

/-- C9: `registerWithGoogle` is register-or-login idempotent: an
existing user (by email, or else by Google id) is returned as a success
with no record created; only when both lookups miss is a new user
appended, and that user has `isVerified = true`. -/
theorem c9_register_with_google_idempotent (db : List User)
    (inp : GoogleRegInput) (newId now : Str) :
    (∀ u, findByEmail db inp.email = some u →
        registerWithGoogle db inp newId now =
          (.ok (stripPasswordHash u), db)) ∧
      (∀ u, findByEmail db inp.email = none →
        getUserByGoogleId db inp.googleId = some u →
        registerWithGoogle db inp newId now =
          (.ok (stripPasswordHash u), db)) ∧
      (findByEmail db inp.email = none →
        getUserByGoogleId db inp.googleId = none →
        registerWithGoogle db inp newId now =
          (.ok (stripPasswordHash (newGoogleUser inp newId now)),
            db ++ [newGoogleUser inp newId now]) ∧
          (newGoogleUser inp newId now).isVerified = true) := by
  refine ⟨fun u h => by simp [registerWithGoogle, h],
    fun u h1 h2 => by simp [registerWithGoogle, h1, h2],
    fun h1 h2 => ⟨by simp [registerWithGoogle, h1, h2], rfl⟩⟩

/-- Witness for C9: re-registering `sampleUser`'s email returns the
existing user and leaves the store unchanged; registering on an empty
store creates one pre-verified user. -/
theorem c9_register_with_google_idempotent_witness :
    registerWithGoogle [sampleUser] ⟨"A@B.com".data, "g1".data, none, none⟩
        "u2".data "t1".data =
      (.ok (stripPasswordHash sampleUser), [sampleUser]) ∧
      registerWithGoogle [] ⟨"A@B.com".data, "g1".data, none, none⟩
          "u2".data "t1".data =
        (.ok (stripPasswordHash
            (newGoogleUser ⟨"A@B.com".data, "g1".data, none, none⟩
              "u2".data "t1".data)),
          [newGoogleUser ⟨"A@B.com".data, "g1".data, none, none⟩
            "u2".data "t1".data]) ∧
      (newGoogleUser ⟨"A@B.com".data, "g1".data, none, none⟩
          "u2".data "t1".data).isVerified = true :=
  ⟨(c9_register_with_google_idempotent [sampleUser]
      ⟨"A@B.com".data, "g1".data, none, none⟩ "u2".data "t1".data).1
      sampleUser (by decide),
   ((c9_register_with_google_idempotent []
      ⟨"A@B.com".data, "g1".data, none, none⟩ "u2".data "t1".data).2.2
      (by decide) (by decide)).1,
   ((c9_register_with_google_idempotent []
      ⟨"A@B.com".data, "g1".data, none, none⟩ "u2".data "t1".data).2.2
      (by decide) (by decide)).2⟩

/-- Closed form of the retry loop when every invocation fails with a
retryable error: the error of the last allowed attempt is surfaced, one
backoff delay is slept after each attempt but the last, and the
operation is invoked once per allowed attempt. -/
theorem retryGo_all_retryable_failures (fn : Nat → Except JsError A)
    (cfg : RetryConfig) (e : Nat → JsError)
    (hf : ∀ n, fn n = .error (e n))
    (hnr : ∀ n, isNonRetryableError (e n) = false) :
    ∀ remaining attempt,
      retryGo fn cfg attempt remaining =
        ⟨.error (e (attempt + remaining)),
          (List.range remaining).map (fun i => backoffDelay cfg (attempt + i)),
          remaining + 1⟩ := by
  intro remaining
  induction remaining with
  | zero => intro a; simp [retryGo, hf a]
  | succ r ih =>
    intro a
    have hfun : (fun i => backoffDelay cfg (a + 1 + i)) =
        (fun i => backoffDelay cfg (a + Nat.succ i)) := by
      funext i
      rw [Nat.succ_eq_add_one, Nat.add_assoc, Nat.add_comm 1 i]
    simp only [retryGo, hf a, hnr a, Bool.false_eq_true, if_false, ih (a + 1),
      List.range_succ_eq_map, List.map_cons, List.map_map, Function.comp_def,
      Nat.add_zero, hfun, RetryTrace.mk.injEq]
    refine ⟨?_, trivial, trivial⟩
    rw [show a + 1 + r = a + (r + 1) by omega]

/-- C6: when every invocation fails with a retryable error,
`retryWithBackoff` invokes the operation exactly `maxRetries + 1` times,
the delay before retry `n` is `min(baseDelay * backoffMultiplier^n,
maxDelay)`, the delays are non-decreasing (for multiplier ≥ 1) and each
is capped by `maxDelay`, no delay follows the final attempt (there are
`maxRetries` delays for `maxRetries + 1` calls), and the last attempt's
error is surfaced. -/
theorem c6_retry_exhausts_with_backoff (fn : Nat → Except JsError A)
    (cfg : RetryConfig) (e : Nat → JsError)
    (hf : ∀ n, fn n = .error (e n))
    (hnr : ∀ n, isNonRetryableError (e n) = false)
    (hm : 1 ≤ cfg.backoffMultiplier) :
    (retryWithBackoff fn cfg).calls = cfg.maxRetries + 1 ∧
      (retryWithBackoff fn cfg).outcome = .error (e cfg.maxRetries) ∧
      (retryWithBackoff fn cfg).delays =
        (List.range cfg.maxRetries).map
          (fun n => min (cfg.baseDelay * cfg.backoffMultiplier ^ n)
            cfg.maxDelay) ∧
      (retryWithBackoff fn cfg).delays.length = cfg.maxRetries ∧
      (∀ d ∈ (retryWithBackoff fn cfg).delays, d ≤ cfg.maxDelay) ∧
      (∀ n, backoffDelay cfg n ≤ backoffDelay cfg (n + 1)) := by
  have h := retryGo_all_retryable_failures fn cfg e hf hnr cfg.maxRetries 0
  have hrw : retryWithBackoff fn cfg =
      ⟨.error (e cfg.maxRetries),
        (List.range cfg.maxRetries).map (backoffDelay cfg),
        cfg.maxRetries + 1⟩ := by
    rw [retryWithBackoff, h]
    simp [Nat.zero_add]
  refine ⟨by rw [hrw], by rw [hrw], by rw [hrw]; rfl, by rw [hrw]; simp,
    ?_, ?_⟩
  · rw [hrw]
    intro d hd
    simp only [List.mem_map] at hd
    obtain ⟨n, _, rfl⟩ := hd
    exact min_le_right _ _
  · intro n
    have hpow : cfg.backoffMultiplier ^ n ≤ cfg.backoffMultiplier ^ (n + 1) :=
      Nat.pow_le_pow_right hm (Nat.le_succ n)
    exact min_le_min (Nat.mul_le_mul_left _ hpow) le_rfl

/-- Witness for C6 at the default policy and a concrete transient
error: 4 calls in total with delays 1000, 2000, 4000 ms. -/
theorem c6_retry_exhausts_with_backoff_witness :
    (retryWithBackoff (fun _ => (Except.error sampleNetworkError :
        Except JsError Nat)) defaultRetryConfig).calls = 3 + 1 ∧
      (retryWithBackoff (fun _ => (Except.error sampleNetworkError :
          Except JsError Nat)) defaultRetryConfig).delays =
        [1000, 2000, 4000] :=
  have hnr0 : isNonRetryableError sampleNetworkError = false := by decide
  have h := c6_retry_exhausts_with_backoff
    (fun _ => (Except.error sampleNetworkError : Except JsError Nat))
    defaultRetryConfig (fun _ => sampleNetworkError) (fun _ => rfl)
    (fun _ => hnr0) (by decide)
  ⟨h.1, by rw [h.2.2.1]; decide⟩

/-- C5 counterexample: the claim that every user record returned by the
public auth operations is stripped of `passwordHash` is false — free-text
search (`getUsers`) and lookup by id (`GET /user/:userId`, backed by
`userService.getUserById`) both return the stored record verbatim, hash
included. -/
theorem c5_counterexample_lookup_exposes_hash :
    (getUsers [sampleUser] "bob".data).map User.passwordHash =
        [some "secret-bcrypt-digest".data] ∧
      (getUserById [sampleUser] "u1".data).map User.passwordHash =
        some (some "secret-bcrypt-digest".data) := by
  constructor
  · decide
  · decide

/-- C5 amended: the flows that build a response user themselves —
email registration, Google registration, email login, and phone-OTP
login — always strip the password hash from the returned record; the
raw lookups (`getUsers`, `getUserById`) do not. -/
theorem c5_amended_auth_flows_strip_hash (bc : Str → Str → Bool)
    (hashFn : Str → Str) (db : List User) (otp : OtpStore) (nowMs : Nat)
    (einp : EmailRegInput) (ginp : GoogleRegInput)
    (email password phone code newId now : Str) :
    (∀ u rest, loginWithEmail bc db email password now = (.ok u, rest) →
        u.passwordHash = none) ∧
      (∀ u rest, registerWithEmail hashFn db einp newId now = (.ok u, rest) →
        u.passwordHash = none) ∧
      (∀ u rest, registerWithGoogle db ginp newId now = (.ok u, rest) →
        u.passwordHash = none) ∧
      (∀ u rest, loginWithPhone otp db nowMs phone code now = (.ok u, rest) →
        u.passwordHash = none) := by
  refine ⟨fun u rest h => ?_, fun u rest h => ?_, fun u rest h => ?_,
    fun u rest h => ?_⟩
  · rw [loginWithEmail] at h
    split at h
    · exact absurd h (by simp)
    · split at h
      · exact absurd h (by simp)
      · split at h
        · exact absurd h (by simp)
        · split at h
          · obtain ⟨h1, -⟩ := Prod.mk.injEq .. ▸ h
            cases h1
            rfl
          · exact absurd h (by simp)
  · rw [registerWithEmail] at h
    split at h
    · exact absurd h (by simp)
    · obtain ⟨h1, -⟩ := Prod.mk.injEq .. ▸ h
      cases h1
      rfl
  · rw [registerWithGoogle] at h
    split at h
    · obtain ⟨h1, -⟩ := Prod.mk.injEq .. ▸ h
      cases h1
      rfl
    · split at h
      · obtain ⟨h1, -⟩ := Prod.mk.injEq .. ▸ h
        cases h1
        rfl
      · obtain ⟨h1, -⟩ := Prod.mk.injEq .. ▸ h
        cases h1
        rfl
  · rw [loginWithPhone] at h
    split at h
    · exact absurd h (by simp)
    · split at h
      · exact absurd h (by simp)
      · obtain ⟨h1, -⟩ := Prod.mk.injEq .. ▸ h
        cases h1
        rfl

/-- Witness for C5 (amended): a successful concrete email login returns
`sampleUser` with its password hash stripped. -/
theorem c5_amended_auth_flows_strip_hash_witness :
    (stripPasswordHash sampleUser).passwordHash = none :=
  (c5_amended_auth_flows_strip_hash (fun _ _ => true) id [sampleUser] [] 0
      ⟨[], [], [], none⟩ ⟨[], [], none, none⟩ "a@b.com".data "pw".data
      [] [] "u9".data "t1".data).1
    (stripPasswordHash sampleUser)
    (updateLastLogin [sampleUser] "u1".data "t1".data) (by rfl)

/-! ## Phone-normalization lemmas -/

theorem dropWhile_eq_self_of_all (f : Char → Bool) (l : Str)
    (h : ∀ c ∈ l, f c = false) : l.dropWhile f = l := by
  cases l with
  | nil => rfl
  | cons c t => simp [List.dropWhile_cons, h c (List.mem_cons_self c t)]

theorem trimStr_eq_self (p : Str) (h : ∀ c ∈ p, isWsChar c = false) :
    trimStr p = p := by
  rw [trimStr, dropWhile_eq_self_of_all _ _ h,
    dropWhile_eq_self_of_all _ _ (fun c hc => h c (List.mem_reverse.mp hc)),
    List.reverse_reverse]

theorem ws_false_of_digit (c : Char) (h : isDigitChar c = true) :
    isWsChar c = false := by
  have h0 : '0' ≤ c := by
    have h' := h
    simp only [isDigitChar, Bool.and_eq_true, decide_eq_true_eq] at h'
    exact h'.1
  have hx : ∀ d : Char, d < '0' → decide (c = d) = false := fun d hd =>
    decide_eq_false fun he => absurd h0 (by rw [he]; exact not_le.mpr hd)
  simp only [isWsChar, hx ' ' (by decide), hx '\t' (by decide),
    hx '\n' (by decide), hx '\r' (by decide), Bool.or_self]

theorem dash_false_of_digit (c : Char) (h : isDigitChar c = true) :
    decide (c = '-') = false := by
  have h0 : '0' ≤ c := by
    have h' := h
    simp only [isDigitChar, Bool.and_eq_true, decide_eq_true_eq] at h'
    exact h'.1
  exact decide_eq_false fun he => absurd h0 (by rw [he]; exact not_le.mpr (by decide))

theorem stripSD_eq_self (p : Str) (hd : ∀ c ∈ p, isDigitChar c = true) :
    stripSpacesDashes p = p := by
  rw [stripSpacesDashes]
  refine List.filter_eq_self.mpr fun a ha => ?_
  simp [ws_false_of_digit a (hd a ha), dash_false_of_digit a (hd a ha)]

theorem digits_cons (c : Char) (s : Str) (hc : isDigitChar c = true)
    (hs : ∀ d ∈ s, isDigitChar d = true) :
    ∀ d ∈ c :: s, isDigitChar d = true := by
  intro d hd
  rcases List.mem_cons.mp hd with rfl | h
  · exact hc
  · exact hs d h

theorem trimStr_append_digits (pre s : Str)
    (hpre : ∀ c ∈ pre, isWsChar c = false)
    (hs : ∀ c ∈ s, isDigitChar c = true) :
    trimStr (pre ++ s) = pre ++ s := by
  refine trimStr_eq_self _ fun c hc => ?_
  rcases List.mem_append.mp hc with h | h
  · exact hpre c h
  · exact ws_false_of_digit c (hs c h)

/-- Every representation of a core is canonicalized by
`normalizePhoneNumber` to the international form matching its
trunk-digit carriage. -/
theorem normalize_phone_variant (s : Str) (t : Bool) (p : Str)
    (hs : GoodCore s) (hp : IsPhoneVariant s t p) :
    normalizePhoneNumber p = canonicalPhone s t := by
  obtain ⟨hne, hd, h0, h9⟩ := hs
  have hdigitsAll : ∀ st : Str, st = s → ∀ c ∈ st, isDigitChar c = true := by
    intro st hst; subst hst; exact hd
  cases t with
  | true =>
    rcases hp with ⟨hplus, hcore⟩ | hplus
    · have hpne : p.isEmpty = false := by
        cases hp2 : p with
        | nil =>
          exfalso
          subst hp2
          rcases hcore with h | h <;> simp [trimStr, stripSpacesDashes] at h
        | cons c q => rfl
      rcases hcore with h | h
      · have h01 : startsWithStr ('0' :: s) ['0'] = true := by
          simp [startsWithStr, List.isPrefixOf]
        simp only [normalizePhoneNumber, hpne, Bool.false_eq_true, if_false,
          hplus, h, h01, if_true]
        rfl
      · have e1 : "9720".data ++ s = '9' :: '7' :: '2' :: '0' :: s := rfl
        have hA : startsWithStr ('9' :: '7' :: '2' :: '0' :: s) ['0'] = false := by
          simp [startsWithStr, List.isPrefixOf]
        have hB : startsWithStr ('9' :: '7' :: '2' :: '0' :: s) "972".data
            = true := by
          simp [startsWithStr, List.isPrefixOf]
        simp only [normalizePhoneNumber, hpne, Bool.false_eq_true, if_false,
          hplus, h, e1, hA, hB, if_true]
        rfl
    · have hpne : p.isEmpty = false := by
        cases hp2 : p with
        | nil => exfalso; subst hp2; simp [trimStr] at hplus
        | cons c q => rfl
      have hps : startsWithStr (trimStr p) ['+'] = true := by
        rw [hplus]
        simp [startsWithStr, List.isPrefixOf]
      simp only [normalizePhoneNumber, hpne, Bool.false_eq_true, if_false,
        hps, if_true, hplus]
      rfl
  | false =>
    rcases hp with ⟨hplus, hcore⟩ | hplus
    · have hpne : p.isEmpty = false := by
        cases hp2 : p with
        | nil =>
          exfalso
          subst hp2
          rcases hcore with h | h
          · exact hne (by simpa [trimStr, stripSpacesDashes] using h.symm)
          · simp [trimStr, stripSpacesDashes] at h
        | cons c q => rfl
      rcases hcore with h | h
      · obtain ⟨c, q, rfl⟩ : ∃ c q, s = c :: q := by
          cases s with
          | nil => exact absurd rfl hne
          | cons c q => exact ⟨c, q, rfl⟩
        have hc0 : c ≠ '0' := fun he => h0 (by rw [he]; rfl)
        have hc9 : c ≠ '9' := fun he => h9 (by rw [he]; rfl)
        have hA : startsWithStr (c :: q) ['0'] = false := by
          simp [startsWithStr, List.isPrefixOf, Ne.symm hc0]
        have hB : startsWithStr (c :: q) "972".data = false := by
          simp [startsWithStr, List.isPrefixOf, Ne.symm hc9]
        simp only [normalizePhoneNumber, hpne, Bool.false_eq_true, if_false,
          hplus, h, hA, hB]
        rfl
      · have e1 : "972".data ++ s = '9' :: '7' :: '2' :: s := rfl
        have hA : startsWithStr ('9' :: '7' :: '2' :: s) ['0'] = false := by
          simp [startsWithStr, List.isPrefixOf]
        have hB : startsWithStr ('9' :: '7' :: '2' :: s) "972".data = true := by
          simp [startsWithStr, List.isPrefixOf]
        simp only [normalizePhoneNumber, hpne, Bool.false_eq_true, if_false,
          hplus, h, e1, hA, hB, if_true]
        rfl
    · have hpne : p.isEmpty = false := by
        cases hp2 : p with
        | nil => exfalso; subst hp2; simp [trimStr] at hplus
        | cons c q => rfl
      have hps : startsWithStr (trimStr p) ['+'] = true := by
        rw [hplus]
        simp [startsWithStr, List.isPrefixOf]
      simp only [normalizePhoneNumber, hpne, Bool.false_eq_true, if_false,
        hps, if_true, hplus]
      rfl

/-- `normalizePhoneNumber` maps the trunk-carrying local form `0s` to
`+9720s`. -/
theorem normalize_trunk_local (s : Str)
    (hd : ∀ c ∈ s, isDigitChar c = true) :
    normalizePhoneNumber ('0' :: s) = '+' :: '9' :: '7' :: '2' :: '0' :: s := by
  have hall : ∀ c ∈ '0' :: s, isDigitChar c = true :=
    digits_cons '0' s (by decide) hd
  have htrim : trimStr ('0' :: s) = '0' :: s :=
    trimStr_eq_self _ (fun c hc => ws_false_of_digit c (hall c hc))
  have hstrip : stripSpacesDashes ('0' :: s) = '0' :: s :=
    stripSD_eq_self _ hall
  have hplus : startsWithStr ('0' :: s) ['+'] = false := by
    simp [startsWithStr, List.isPrefixOf]
  have h01 : startsWithStr ('0' :: s) ['0'] = true := by
    simp [startsWithStr, List.isPrefixOf]
  simp only [normalizePhoneNumber, List.isEmpty_cons, Bool.false_eq_true,
    if_false, htrim, hplus, hstrip, h01, if_true]
  rfl

/-- `normalizeToLocalFormat` maps `+9720s` back to the local form
`0s`. -/
theorem toLocal_plus9720 (s : Str) (hd : ∀ c ∈ s, isDigitChar c = true) :
    normalizeToLocalFormat ('+' :: '9' :: '7' :: '2' :: '0' :: s) =
      '0' :: s := by
  have htrim : trimStr ('+' :: '9' :: '7' :: '2' :: '0' :: s) =
      '+' :: '9' :: '7' :: '2' :: '0' :: s := by
    refine trimStr_eq_self _ fun c hc => ?_
    simp only [List.mem_cons] at hc
    rcases hc with rfl | rfl | rfl | rfl | rfl | h
    · rfl
    · rfl
    · rfl
    · rfl
    · rfl
    · exact ws_false_of_digit c (hd c h)
  have hA : startsWithStr ('+' :: '9' :: '7' :: '2' :: '0' :: s)
      "+9720".data = true := by
    simp [startsWithStr, List.isPrefixOf]
  simp only [normalizeToLocalFormat, List.isEmpty_cons, Bool.false_eq_true,
    if_false, htrim, hA, if_true]
  rfl

/-- `normalizeToLocalFormat` maps `+972s` (no trunk digit) to the same
local form `0s`. -/
theorem toLocal_plus972 (s : Str) (hd : ∀ c ∈ s, isDigitChar c = true)
    (h0 : s.head? ≠ some '0') :
    normalizeToLocalFormat ('+' :: '9' :: '7' :: '2' :: s) = '0' :: s := by
  have htrim : trimStr ('+' :: '9' :: '7' :: '2' :: s) =
      '+' :: '9' :: '7' :: '2' :: s := by
    refine trimStr_eq_self _ fun c hc => ?_
    simp only [List.mem_cons] at hc
    rcases hc with rfl | rfl | rfl | rfl | h
    · rfl
    · rfl
    · rfl
    · rfl
    · exact ws_false_of_digit c (hd c h)
  have hA : startsWithStr ('+' :: '9' :: '7' :: '2' :: s) "+9720".data
      = false := by
    cases s with
    | nil => rfl
    | cons c q =>
      have hc0 : c ≠ '0' := fun he => h0 (by rw [he]; rfl)
      simp [startsWithStr, List.isPrefixOf, Ne.symm hc0]
  have hB : startsWithStr ('+' :: '9' :: '7' :: '2' :: s) "+972".data
      = true := by
    simp [startsWithStr, List.isPrefixOf]
  simp only [normalizeToLocalFormat, List.isEmpty_cons, Bool.false_eq_true,
    if_false, htrim, hA, hB, if_true]
  rfl

/-- `internationalWithoutZero` of `+9720s` is `+972s`. -/
theorem intl_canonical_trunk (s : Str) :
    intlWithoutZero (canonicalPhone s true) = canonicalPhone s false := by
  have hA : startsWithStr ('+' :: '9' :: '7' :: '2' :: '0' :: s)
      "+9720".data = true := by
    simp [startsWithStr, List.isPrefixOf]
  show intlWithoutZero ('+' :: '9' :: '7' :: '2' :: '0' :: s) =
    '+' :: '9' :: '7' :: '2' :: s
  simp only [intlWithoutZero, hA, if_true]
  rfl

/-- `internationalWithoutZero` leaves `+972s` unchanged when the core
does not begin with `0`. -/
theorem intl_canonical_bare (s : Str) (h0 : s.head? ≠ some '0') :
    intlWithoutZero (canonicalPhone s false) = canonicalPhone s false := by
  have hA : startsWithStr ('+' :: '9' :: '7' :: '2' :: s) "+9720".data
      = false := by
    cases s with
    | nil => rfl
    | cons c q =>
      have hc0 : c ≠ '0' := fun he => h0 (by rw [he]; rfl)
      simp [startsWithStr, List.isPrefixOf, Ne.symm hc0]
  show intlWithoutZero ('+' :: '9' :: '7' :: '2' :: s) =
    '+' :: '9' :: '7' :: '2' :: s
  simp only [intlWithoutZero, hA, Bool.false_eq_true, if_false]

/-- The candidate list built for the trunk-carrying canonical form
contains it, the local form, and the trunk-less canonical form. -/
theorem candidates_canonical_trunk (s : Str) (hs : GoodCore s) :
    candidateFormats (canonicalPhone s true) =
      [canonicalPhone s true, '0' :: s, canonicalPhone s false] := by
  obtain ⟨hne, hd, h0, h9⟩ := hs
  have e1 : canonicalPhone s true = '+' :: '9' :: '7' :: '2' :: '0' :: s := rfl
  have e2 : canonicalPhone s false = '+' :: '9' :: '7' :: '2' :: s := rfl
  have hl : normalizeToLocalFormat (canonicalPhone s true) = '0' :: s :=
    toLocal_plus9720 s hd
  have hi := intl_canonical_trunk s
  have hx : ¬ ('0' :: s = '+' :: '9' :: '7' :: '2' :: '0' :: s) := by
    intro he
    exact absurd (List.cons.injEq .. ▸ he).1 (by decide)
  have hy : ¬ ('+' :: '9' :: '7' :: '2' :: s =
      '+' :: '9' :: '7' :: '2' :: '0' :: s) := by
    intro he
    have hlen := congrArg List.length he
    simp only [List.length_cons] at hlen
    omega
  have hz : ¬ ('+' :: '9' :: '7' :: '2' :: s = '0' :: s) := by
    intro he
    exact absurd (List.cons.injEq .. ▸ he).1 (by decide)
  rw [candidateFormats, hl, hi, e1, e2]
  simp [dedupStr, dedupAux, List.filter_cons, hx, hy, hz]

/-- The candidate list built for the trunk-less canonical form contains
only it and the local form — the trunk-carrying canonical is absent. -/
theorem candidates_canonical_bare (s : Str) (hs : GoodCore s) :
    candidateFormats (canonicalPhone s false) =
      [canonicalPhone s false, '0' :: s] := by
  obtain ⟨hne, hd, h0, h9⟩ := hs
  have e2 : canonicalPhone s false = '+' :: '9' :: '7' :: '2' :: s := rfl
  have hl : normalizeToLocalFormat (canonicalPhone s false) = '0' :: s :=
    toLocal_plus972 s hd h0
  have hi : intlWithoutZero (canonicalPhone s false) = canonicalPhone s false :=
    intl_canonical_bare s h0
  have hz : ¬ ('0' :: s = '+' :: '9' :: '7' :: '2' :: s) := by
    intro he
    exact absurd (List.cons.injEq .. ▸ he).1 (by decide)
  have hz2 : ¬ ('+' :: '9' :: '7' :: '2' :: s = '0' :: s) := by
    intro he
    exact absurd (List.cons.injEq .. ▸ he).1 (by decide)
  rw [candidateFormats, hl, hi, e2]
  simp [dedupStr, dedupAux, List.filter_cons, hz, hz2]

/-- C7 counterexample: `"501234567"` and `"0501234567"` differ only in
the leading trunk digit, yet the candidate list `getUserByPhone` builds
for the former — whether applied to it raw or to its canonical form —
does not contain the canonical form of the latter, so the lookup misses
a user stored under it. -/
theorem c7_counterexample_trunkless_misses :
    ¬ (normalizePhoneNumber "0501234567".data ∈
        candidateFormats "501234567".data) ∧
      ¬ (normalizePhoneNumber "0501234567".data ∈
        candidateFormats (normalizePhoneNumber "501234567".data)) := by
  constructor
  · decide
  · decide

/-- C7 amended: for any two representations of the same well-formed
local core differing only in leading `+`, trunk `0`, or spacing/dashes,
the candidate list built for the canonical form of the first input
always contains the common local display form, and contains the
canonical form of the second whenever the first carries the trunk digit
or the second does not. -/
theorem c7_amended_candidate_superset (s : Str) (t1 t2 : Bool) (p1 p2 : Str)
    (hs : GoodCore s) (h1 : IsPhoneVariant s t1 p1)
    (h2 : IsPhoneVariant s t2 p2) :
    normalizeToLocalFormat (normalizePhoneNumber p2) ∈
        candidateFormats (normalizePhoneNumber p1) ∧
      (t1 = true ∨ t2 = false →
        normalizePhoneNumber p2 ∈ candidateFormats (normalizePhoneNumber p1)) := by
  rw [normalize_phone_variant s t1 p1 hs h1,
    normalize_phone_variant s t2 p2 hs h2]
  have hloc : normalizeToLocalFormat (canonicalPhone s t2) = '0' :: s := by
    cases t2
    · exact toLocal_plus972 s hs.2.1 hs.2.2.1
    · exact toLocal_plus9720 s hs.2.1
  rw [hloc]
  constructor
  · cases t1
    · rw [candidates_canonical_bare s hs]
      simp
    · rw [candidates_canonical_trunk s hs]
      simp
  · intro ht
    rcases ht with rfl | rfl
    · rw [candidates_canonical_trunk s hs]
      cases t2 <;> simp
    · cases t1
      · rw [candidates_canonical_bare s hs]
        simp
      · rw [candidates_canonical_trunk s hs]
        simp

/-- Witness for C7 (amended): the spaced-and-dashed trunk form
`"050-123 4567"` and the international `"+972501234567"` represent the
same core; the candidate list for the former's canonical form contains
the latter's canonical form and the local form. -/
theorem c7_amended_candidate_superset_witness :
    normalizeToLocalFormat (normalizePhoneNumber "+972501234567".data) ∈
        candidateFormats (normalizePhoneNumber "050-123 4567".data) ∧
      normalizePhoneNumber "+972501234567".data ∈
        candidateFormats (normalizePhoneNumber "050-123 4567".data) :=
  ⟨(c7_amended_candidate_superset "501234567".data true false
      "050-123 4567".data "+972501234567".data (by decide) (by decide)
      (by decide)).1,
   (c7_amended_candidate_superset "501234567".data true false
      "050-123 4567".data "+972501234567".data (by decide) (by decide)
      (by decide)).2 (Or.inl rfl)⟩

/-- C8 counterexample: the transforms are not inverses on the
well-formed international input `"+972501234567"` (the round trip lands
on `"+9720501234567"`), and the malformed input `"abc"` is not passed
through unchanged by either direction (`normalizePhoneNumber` prepends
`+972`, `normalizeToLocalFormat` prepends `0`). -/
theorem c8_counterexample_not_inverses :
    normalizePhoneNumber (normalizeToLocalFormat "+972501234567".data) ≠
        "+972501234567".data ∧
      normalizePhoneNumber "abc".data ≠ "abc".data ∧
      normalizeToLocalFormat "abc".data ≠ "abc".data := by
  refine ⟨by decide, by decide, by decide⟩

/-- C8 amended: the forward and reverse phone transforms are exact
inverses on the trunk-carrying well-formed pair — the local form
`0`+digits and its international image `+9720`+digits; inputs outside
that pair (trunk-less international, bare, or malformed) do not
round-trip to themselves. -/
theorem c8_amended_roundtrip_trunk_forms (s : Str)
    (hd : ∀ c ∈ s, isDigitChar c = true) :
    normalizeToLocalFormat (normalizePhoneNumber ('0' :: s)) = '0' :: s ∧
      normalizePhoneNumber
          (normalizeToLocalFormat ('+' :: '9' :: '7' :: '2' :: '0' :: s)) =
        '+' :: '9' :: '7' :: '2' :: '0' :: s := by
  constructor
  · rw [normalize_trunk_local s hd, toLocal_plus9720 s hd]
  · rw [toLocal_plus9720 s hd, normalize_trunk_local s hd]

/-- Witness for C8 (amended) at a concrete number. -/
theorem c8_amended_roundtrip_trunk_forms_witness :
    normalizeToLocalFormat (normalizePhoneNumber "0501234567".data) =
        "0501234567".data ∧
      normalizePhoneNumber (normalizeToLocalFormat "+9720501234567".data) =
        "+9720501234567".data :=
  c8_amended_roundtrip_trunk_forms "501234567".data (by decide)

end Ziko
